import Mathlib

/-!
Shallow embedding of the data-preparation logic of the GCapricorn dashboard
(file streamlit_app.py): the functions generate_prognostic_data,
prioritize_protein_class and load_data, together with theorems settling the
stated properties of the specification.

Python strings are modelled as Lean String values; the Python string
primitives used by the source (split on a character, no-argument split on
whitespace, strip, lower, substring containment) are embedded as explicit
functions on the underlying character list, so that every statement can be
evaluated and reasoned about by structural induction.  A missing (NaN) cell
is modelled as Option.none; the Python expression str(x) maps a NaN cell to
the string "nan", which the embedding mirrors.  A Python exception
(here: the IndexError possibly raised by x.split("-")[1]) is modelled by
Option.none at the result type.
-/

/-- Python list slicing helper: spelled startsWith needle hay, true when
needle is an initial segment of hay. -/
def startsWith : List Char → List Char → Bool
  | [], _ => true
  | _ :: _, [] => false
  | a :: as, b :: bs => a = b && startsWith as bs

/-- Python substring test: needle in hay. -/
def containsSeq (needle : List Char) : List Char → Bool
  | [] => needle.isEmpty
  | c :: t => startsWith needle (c :: t) || containsSeq needle t

/-- Python expression needle in hay for strings. -/
def pyIn (needle hay : String) : Bool := containsSeq needle.data hay.data

/-- Splitting a character list at every character satisfying p, keeping
empty segments, as Python str.split(sep) does for a one-character sep. -/
def splitP (p : Char → Bool) : List Char → List (List Char)
  | [] => [[]]
  | c :: cs =>
    match splitP p cs with
    | [] => [[c]]
    | h :: t => if p c then [] :: h :: t else (c :: h) :: t

/-- Python s.split(sep) for a one-character separator sep. -/
def pySplit (sep : Char) (s : String) : List String :=
  (splitP (fun c => c = sep) s.data).map String.mk

/-- Python s.strip(): remove leading and trailing whitespace. -/
def pyStrip (s : String) : String :=
  String.mk (((s.data.dropWhile Char.isWhitespace).reverse.dropWhile
      Char.isWhitespace).reverse)

/-- Python s.lower(). -/
def pyLower (s : String) : String := String.mk (s.data.map Char.toLower)

/-- Python s.split() with no argument: split on whitespace runs and drop
empty segments. -/
def pyWords (s : String) : List String :=
  ((splitP Char.isWhitespace s.data).filter (fun l => ¬ l.isEmpty)).map String.mk

/-- Python str(x) applied to a cell that is either a string or NaN. -/
def strOfCell : Option String → String
  | none => "nan"
  | some s => s

/-- Sequencing of a fallible function over a list: some list of results when
every application succeeds, none as soon as one fails.  This models a Python
computation that raises on the first failing element. -/
def mapOption (f : α → Option β) : List α → Option (List β)
  | [] => some []
  | x :: xs =>
    match f x, mapOption f xs with
    | some y, some ys => some (y :: ys)
    | _, _ => none

/-! ## The source functions

A pandas row is modelled as the list of its (column name, cell) pairs in
column order; a cell is none when the entry is NaN. -/

/-- Line 35 of streamlit_app.py: the candidate columns of the row, those
whose name contains the substring "Pathology prognostics". -/
def prognostic_fields (row : List (String × Option String)) :
    List (String × Option String) :=
  row.filter (fun c => pyIn "Pathology prognostics" c.1)

/-- Line 37 of streamlit_app.py: the candidate columns whose cell value,
via str(x).lower().split(), contains the polarity word as a whole token. -/
def matching_prognostics (row : List (String × Option String))
    (prognostic_type : String) : List (String × Option String) :=
  (prognostic_fields row).filter
    (fun c => (pyWords (pyLower (strOfCell c.2))).contains prognostic_type)

/-- The lambda of line 38 of streamlit_app.py: extraction of the emitted
label from a column name, x.split("-")[1].strip().  The indexing [1] raises
IndexError when the split has a single segment, hence the Option result. -/
def extracted_type (c : String × Option String) : Option String :=
  ((pySplit '-' c.1).get? 1).map pyStrip

/-- Line 38 of streamlit_app.py, before joining: the cancer types emitted
for one row and polarity, x.split("-")[1].strip() for each matching column
name x. -/
def prognostic_types (row : List (String × Option String))
    (prognostic_type : String) : Option (List String) :=
  mapOption extracted_type (matching_prognostics row prognostic_type)

/-- generate_prognostic_data (streamlit_app.py lines 27-38): the
comma-joined cancer types for which the row has a prognostic_type
prognostic; none models the IndexError raised on a matching column whose
name has no "-". -/
def generate_prognostic_data (row : List (String × Option String))
    (prognostic_type : String) : Option String :=
  (prognostic_types row prognostic_type).map (String.intercalate ",")

/-- The configured priority list (streamlit_app.py lines 18-21). -/
def protein_class_priority : List String := ["Enzymes", "Transporters"]

/-- prioritize_protein_class (streamlit_app.py lines 41-56).  The Python
default priority_list=None resolved to protein_class_priority is modelled
by callers passing protein_class_priority explicitly. -/
def prioritize_protein_class (protein_classes : String)
    (priority_list : List String) : List String :=
  let class_list := (pySplit ',' protein_classes).map pyStrip
  let prioritized_protein_classes :=
    priority_list.filter (fun x => class_list.contains x)
  if prioritized_protein_classes.isEmpty then class_list
  else prioritized_protein_classes

/-! ## The loader

A source record: the designated columns Uniprot and Protein class, plus the
remaining columns (in particular the pathology ones).  The names of the
designated columns, and of the derived columns the loader adds, do not
contain the substring "Pathology prognostics", so keeping them apart from
cols leaves the candidate-column computation unchanged. -/

structure Row where
  uniprot : Option String
  proteinClass : Option String
  cols : List (String × Option String)
deriving Repr, DecidableEq

/-- A fully derived record, as produced by load_data. -/
structure OutRow where
  uniprot : Option String
  proteinClass : Option String
  cols : List (String × Option String)
  favorable : String
  unfavorable : String
  prioritized : List String
deriving Repr, DecidableEq

/-- Lines 66-67 of streamlit_app.py, per row: DataFrame.apply with axis=1
computes each row independently, so the two column-wise passes of the
source are embedded as one per-row step producing both derived values; a
row on which either computation raises makes the whole loader raise. -/
def addProgRow (r : Row) : Option (Row × String × String) :=
  match generate_prognostic_data r.cols "favorable",
        generate_prognostic_data r.cols "unfavorable" with
  | some f, some u => some (r, f, u)
  | _, _ => none

/-- Line 69 of streamlit_app.py, per kept row: the Prioritized Protein
Class column; a missing Protein class makes the Python code raise
(str method called on NaN), modelled by none. -/
def finalizeRow (x : Row × String × String) : Option OutRow :=
  (x.1.proteinClass).map (fun pc =>
    { uniprot := x.1.uniprot, proteinClass := x.1.proteinClass,
      cols := x.1.cols, favorable := x.2.1, unfavorable := x.2.2,
      prioritized := prioritize_protein_class pc protein_class_priority })

/-- load_data (streamlit_app.py lines 59-70) applied to an already fetched
table: add the Favorable and Unfavorable prognostics columns (lines 66-67),
drop the rows with a missing Uniprot (line 68), then add the Prioritized
Protein Class column (line 69). -/
def load_data (t : List Row) : Option (List OutRow) :=
  match mapOption addProgRow t with
  | none => none
  | some rows =>
      mapOption finalizeRow (rows.filter (fun x => x.1.uniprot.isSome))

/-- Streamlit caches load_data via the cache_data decorator.  Modelled from
the spec: the decorator itself is framework code absent from this
repository; per the specification the fully-derived dataset is computed at
most once per process lifetime and repeated calls return the identical
in-memory result without re-fetching.  The state records the cached value
and how many times the remote resource was fetched; a call first consults
the cache, otherwise fetches once, derives the dataset, and caches a
successful result (an exception, modelled by none, is not cached). -/
structure CacheState where
  cached : Option (List OutRow)
  fetchCount : Nat
deriving Repr, DecidableEq

def load_data_cached (remote : List Row) (s : CacheState) :
    Option (List OutRow) × CacheState :=
  match s.cached with
  | some df => (some df, s)
  | none =>
    match load_data remote with
    | some df => (some df, { cached := some df, fetchCount := s.fetchCount + 1 })
    | none => (none, { cached := none, fetchCount := s.fetchCount + 1 })

/-! ## Auxiliary lemmas -/

theorem startsWith_iff (needle hay : List Char) :
    startsWith needle hay = true ↔ ∃ r, hay = needle ++ r := by
  induction needle generalizing hay with
  | nil => simp [startsWith]
  | cons a as ih =>
    cases hay with
    | nil => simp [startsWith]
    | cons b bs =>
      simp only [startsWith, Bool.and_eq_true, decide_eq_true_eq, ih,
        List.cons_append, List.cons.injEq]
      constructor
      · rintro ⟨rfl, r, rfl⟩; exact ⟨r, rfl, rfl⟩
      · rintro ⟨r, rfl, rfl⟩; exact ⟨rfl, r, rfl⟩

theorem containsSeq_iff (needle hay : List Char) :
    containsSeq needle hay = true ↔ ∃ l r, hay = l ++ needle ++ r := by
  induction hay with
  | nil =>
    simp only [containsSeq, List.isEmpty_iff]
    constructor
    · rintro rfl; exact ⟨[], [], rfl⟩
    · rintro ⟨l, r, h⟩
      rcases List.append_eq_nil.mp h.symm with ⟨h1, h2⟩
      exact (List.append_eq_nil.mp h1).2
  | cons c t ih =>
    simp only [containsSeq, Bool.or_eq_true, startsWith_iff, ih]
    constructor
    · rintro (⟨r, h⟩ | ⟨l, r, h⟩)
      · exact ⟨[], r, by simpa using h⟩
      · exact ⟨c :: l, r, by simp [h]⟩
    · rintro ⟨l, r, h⟩
      cases l with
      | nil => exact Or.inl ⟨r, by simpa using h⟩
      | cons x l =>
        simp only [List.cons_append, List.cons.injEq] at h
        exact Or.inr ⟨l, r, h.2⟩

theorem pyIn_iff (needle hay : String) :
    pyIn needle hay = true ↔ ∃ l r, hay.data = l ++ needle.data ++ r :=
  containsSeq_iff needle.data hay.data

theorem splitP_ne_nil (p : Char → Bool) (l : List Char) : splitP p l ≠ [] := by
  cases l with
  | nil => simp [splitP]
  | cons c cs =>
    simp only [splitP]
    cases splitP p cs with
    | nil => simp
    | cons h t =>
      by_cases hp : p c = true <;> simp [hp]

theorem splitP_length (p : Char → Bool) (l : List Char) :
    (splitP p l).length = l.countP p + 1 := by
  induction l with
  | nil => simp [splitP]
  | cons c cs ih =>
    simp only [splitP]
    cases hs : splitP p cs with
    | nil => exact absurd hs (splitP_ne_nil p cs)
    | cons h t =>
      rw [hs] at ih
      by_cases hp : p c = true <;>
        simp [hp, List.countP_cons, ih.symm]

theorem splitP_eq_single (p : Char → Bool) (l : List Char)
    (h : ∀ c ∈ l, ¬ p c = true) : splitP p l = [l] := by
  induction l with
  | nil => rfl
  | cons c cs ih =>
    have hcs : splitP p cs = [cs] := ih (fun x hx => h x (List.mem_cons_of_mem c hx))
    simp only [splitP, hcs]
    simp [h c (List.mem_cons_self c cs)]

theorem pySplit_get_one_eq_none (sep : Char) (s : String) :
    (pySplit sep s).get? 1 = none ↔ ∀ c ∈ s.data, ¬ c = sep := by
  unfold pySplit
  rw [List.get?_map, Option.map_eq_none', List.get?_eq_none, splitP_length,
    Nat.succ_le_succ_iff, Nat.le_zero, List.countP_eq_zero]
  simp

theorem pyStrip_of_whitespace (s : String) (h : ∀ c ∈ s.data, c.isWhitespace) :
    pyStrip s = "" := by
  unfold pyStrip
  rw [List.dropWhile_eq_nil_iff.mpr h]
  rfl

theorem mapOption_eq_some_mem {α β : Type} {f : α → Option β} {l : List α}
    {ys : List β} (h : mapOption f l = some ys) {y : β} (hy : y ∈ ys) :
    ∃ x ∈ l, f x = some y := by
  induction l generalizing ys with
  | nil =>
    simp only [mapOption, Option.some.injEq] at h
    subst h; simp at hy
  | cons x xs ih =>
    simp only [mapOption] at h
    cases hfx : f x with
    | none => rw [hfx] at h; simp at h
    | some y0 =>
      rw [hfx] at h
      cases hrest : mapOption f xs with
      | none => rw [hrest] at h; simp at h
      | some ys0 =>
        rw [hrest] at h
        simp only [Option.some.injEq] at h
        subst h
        rcases List.mem_cons.mp hy with rfl | hmem
        · exact ⟨x, List.mem_cons_self x xs, hfx⟩
        · rcases ih hrest hmem with ⟨x1, hx1, hfx1⟩
          exact ⟨x1, List.mem_cons_of_mem x hx1, hfx1⟩

theorem mapOption_eq_none_iff {α β : Type} (f : α → Option β) (l : List α) :
    mapOption f l = none ↔ ∃ x ∈ l, f x = none := by
  induction l with
  | nil => simp [mapOption]
  | cons x xs ih =>
    simp only [mapOption]
    cases hfx : f x with
    | none => simp [hfx]
    | some y0 =>
      cases hrest : mapOption f xs with
      | none => simpa [hrest] using Or.inr (ih.mp hrest)
      | some ys0 =>
        simp only [reduceCtorEq, false_iff, not_exists, not_and]
        intro a ha
        rcases List.mem_cons.mp ha with rfl | hmem
        · simp [hfx]
        · intro hnone
          have : mapOption f xs = none := ih.mpr ⟨a, hmem, hnone⟩
          rw [this] at hrest; cases hrest

theorem mapOption_isSome_iff {α β : Type} (f : α → Option β) (l : List α) :
    (mapOption f l).isSome = true ↔ ∀ x ∈ l, (f x).isSome = true := by
  rw [← Option.ne_none_iff_isSome, ne_eq, mapOption_eq_none_iff]
  simp [Option.ne_none_iff_isSome]
/-! ## Claims about the Class Prioritizer -/

/-- Claim C3: whenever some trimmed label of the input occurs in the
priority list, prioritize_protein_class returns exactly the priority list
filtered to the labels present in the trimmed label set of the input, in
priority-list order (hence independent of input order). -/
theorem prioritize_protein_class_intersecting (s : String)
    (priority : List String)
    (h : ∃ x ∈ (pySplit ',' s).map pyStrip, x ∈ priority) :
    prioritize_protein_class s priority =
      priority.filter (fun x => ((pySplit ',' s).map pyStrip).contains x) := by
  have hne : priority.filter
      (fun x => ((pySplit ',' s).map pyStrip).contains x) ≠ [] := by
    obtain ⟨x, hxl, hxp⟩ := h
    intro hemp
    have hx : x ∈ priority.filter
        (fun y => ((pySplit ',' s).map pyStrip).contains y) :=
      List.mem_filter.mpr ⟨hxp, by simpa [List.elem_eq_mem] using hxl⟩
    rw [hemp] at hx
    exact (List.not_mem_nil x) hx
  simp only [prioritize_protein_class]
  rw [if_neg (by simpa [List.isEmpty_eq_true] using hne)]

/-- Witness for C3, at the example of the specification. -/
theorem prioritize_protein_class_intersecting_witness :
    prioritize_protein_class
        "Transporters, Enzymes, Predicted intracellular proteins"
        protein_class_priority = ["Enzymes", "Transporters"] :=
  (prioritize_protein_class_intersecting _ _
    ⟨"Enzymes", by decide, by decide⟩).trans (by decide)

/-- Claim C4: when the trimmed label set of the input is disjoint from the
priority list, prioritize_protein_class returns the full trimmed input list
in original order. -/
theorem prioritize_protein_class_disjoint (s : String)
    (priority : List String)
    (h : ∀ x ∈ (pySplit ',' s).map pyStrip, x ∉ priority) :
    prioritize_protein_class s priority = (pySplit ',' s).map pyStrip := by
  simp only [prioritize_protein_class]
  rw [if_pos]
  rw [List.isEmpty_eq_true, List.filter_eq_nil_iff]
  intro a ha hcont
  have hmem : a ∈ (pySplit ',' s).map pyStrip := by
    simpa [List.elem_eq_mem] using hcont
  exact h a hmem ha

/-- Witness for C4, at the example of the specification. -/
theorem prioritize_protein_class_disjoint_witness :
    prioritize_protein_class "Predicted intracellular proteins"
        protein_class_priority = ["Predicted intracellular proteins"] :=
  (prioritize_protein_class_disjoint _ _ (by decide)).trans (by decide)

/-- Claim C7: an input that is empty or consists only of whitespace yields
the one-element list holding the empty string. -/
theorem prioritize_protein_class_whitespace (s : String)
    (h : ∀ c ∈ s.data, c.isWhitespace) :
    prioritize_protein_class s protein_class_priority = [""] := by
  have hsplit : pySplit ',' s = [s] := by
    unfold pySplit
    rw [splitP_eq_single]
    · rfl
    · intro c hc hcomma
      have := h c hc
      rw [decide_eq_true_eq] at hcomma
      subst hcomma
      simp [Char.isWhitespace] at this
  have hclass : (pySplit ',' s).map pyStrip = [""] := by
    rw [hsplit]
    simp [pyStrip_of_whitespace s h]
  simp only [prioritize_protein_class, hclass]
  decide

/-- Witness for C7 at a concrete whitespace-only input. -/
theorem prioritize_protein_class_whitespace_witness :
    prioritize_protein_class "  " protein_class_priority = [""] :=
  prioritize_protein_class_whitespace "  " (by decide)
/-! ## Claims about the Prognostic Summarizer -/

/-- Claim C10: a column is a pathology-prognostics candidate exactly when
its name contains the substring "Pathology prognostics" anywhere: no
anchoring at the end and no required prefix, as the concrete instances with
text before and after the phrase show. -/
theorem prognostic_candidate_iff_substring :
    (∀ (row : List (String × Option String)) (c : String × Option String),
        c ∈ prognostic_fields row ↔
          c ∈ row ∧
            ∃ l r, c.1.data = l ++ "Pathology prognostics".data ++ r) ∧
    prognostic_fields [("before Pathology prognostics", some "favorable")] =
      [("before Pathology prognostics", some "favorable")] ∧
    prognostic_fields [("Pathology prognostics after", some "favorable")] =
      [("Pathology prognostics after", some "favorable")] ∧
    prognostic_fields [("Favorable prognostics", some "favorable")] = [] := by
  refine ⟨?_, by decide, by decide, by decide⟩
  intro row c
  simp only [prognostic_fields, List.mem_filter, pyIn_iff]

/-- Witness for C10: a name with text on both sides of the phrase is a
candidate. -/
theorem prognostic_candidate_iff_substring_witness :
    ("x Pathology prognostics y", (some "favorable" : Option String)) ∈
      prognostic_fields [("x Pathology prognostics y", some "favorable")] :=
  (prognostic_candidate_iff_substring.1 _ _).mpr
    ⟨by decide, "x ".data, " y".data, by decide⟩

/-- Claim C6: soundness of the polarity summaries: every emitted cancer
type comes from a column of the row whose name contains the phrase and
whose cell value, via str(x).lower().split(), contains the polarity word as
a whole token; in particular a cell "unfavorable" never contributes to the
favorable summary, despite being a superstring of "favorable". -/
theorem prognostic_summary_sound :
    (∀ (row : List (String × Option String)) (p : String) (l : List String),
        prognostic_types row p = some l → ∀ c ∈ l,
          ∃ col ∈ row, pyIn "Pathology prognostics" col.1 = true ∧
            (pyWords (pyLower (strOfCell col.2))).contains p = true ∧
            extracted_type col = some c) ∧
    generate_prognostic_data
        [("Liver cancer-Pathology prognostics", some "unfavorable")]
        "favorable" = some "" := by
  constructor
  · intro row p l h c hc
    obtain ⟨col, hcol, hext⟩ := mapOption_eq_some_mem h hc
    have h1 := List.mem_filter.mp hcol
    have h2 := List.mem_filter.mp h1.1
    exact ⟨col, h2.1, h2.2, h1.2, hext⟩
  · decide

/-- Witness for C6 at a single-column record. -/
theorem prognostic_summary_sound_witness :
    ∃ col ∈ [("Pathology prognostics - Liver cancer",
        (some "Favorable" : Option String))],
      pyIn "Pathology prognostics" col.1 = true ∧
      (pyWords (pyLower (strOfCell col.2))).contains "favorable" = true ∧
      extracted_type col = some "Liver cancer" :=
  prognostic_summary_sound.1 _ "favorable" ["Liver cancer"] (by decide)
    "Liver cancer" (by decide)

/-- Counterexample to claim C1: a candidate column whose name lacks the "-"
separator is not excluded as non-matching: when its cell contains the
polarity token, the computation fails (none models the IndexError of
x.split("-")[1]) instead of producing the empty summary the claim
predicts. -/
theorem generate_prognostic_data_malformed_raises :
    generate_prognostic_data [("Pathology prognostics", some "favorable")]
        "favorable" = none ∧
    generate_prognostic_data [("Pathology prognostics", some "favorable")]
        "favorable" ≠ some "" := by
  constructor
  · decide
  · decide

/-- Claim C1 amended: a column whose name contains "Pathology prognostics"
but has no "-" stays in the candidate set; the computation fails exactly
when the cell of such a column contains the polarity token, and raises no
error otherwise. -/
theorem generate_prognostic_data_none_iff
    (row : List (String × Option String)) (p : String) :
    generate_prognostic_data row p = none ↔
      ∃ c ∈ matching_prognostics row p, ∀ ch ∈ c.1.data, ¬ ch = '-' := by
  unfold generate_prognostic_data
  rw [Option.map_eq_none']
  unfold prognostic_types
  rw [mapOption_eq_none_iff]
  constructor
  · rintro ⟨c, hc, hnone⟩
    refine ⟨c, hc, ?_⟩
    rw [extracted_type, Option.map_eq_none'] at hnone
    exact (pySplit_get_one_eq_none '-' c.1).mp hnone
  · rintro ⟨c, hc, hnd⟩
    refine ⟨c, hc, ?_⟩
    rw [extracted_type, Option.map_eq_none']
    exact (pySplit_get_one_eq_none '-' c.1).mpr hnd

/-- Witness for the amended C1: a dash-less candidate column whose cell
contains the polarity token makes the computation fail. -/
theorem generate_prognostic_data_none_iff_witness :
    generate_prognostic_data [("Pathology prognostics", some "unfavorable")]
        "unfavorable" = none :=
  (generate_prognostic_data_none_iff _ _).mpr
    ⟨("Pathology prognostics", some "unfavorable"), by decide, by decide⟩

/-- The extraction rule claimed by C2, modelled from the wording of the
specification for comparison with the code: split the column name on the
FIRST "-" and take everything after it, trimmed. -/
def afterFirstDash : List Char → Option (List Char)
  | [] => none
  | c :: t => if c = '-' then some t else afterFirstDash t

def claimed_cancer_type (name : String) : Option String :=
  (afterFirstDash name.data).map (fun l => pyStrip (String.mk l))

/-- Counterexample to claim C2: the code takes segment [1] of splitting on
ALL "-" characters, the text between the first and second dash, not
everything after the first dash; and on the example column
"Liver cancer-Pathology prognostics" the emitted value is
"Pathology prognostics", so the unfavorable summary does not include
"Liver cancer". -/
theorem cancer_type_claim_fails :
    claimed_cancer_type "A-B-Pathology prognostics" =
      some "B-Pathology prognostics" ∧
    prognostic_types [("A-B-Pathology prognostics", some "favorable")]
        "favorable" = some ["B"] ∧
    ("B" : String) ≠ "B-Pathology prognostics" ∧
    prognostic_types
        [("Liver cancer-Pathology prognostics", some "unfavorable")]
        "unfavorable" = some ["Pathology prognostics"] ∧
    "Liver cancer" ∉ ["Pathology prognostics"] := by
  refine ⟨by decide, by decide, by decide, by decide, by decide⟩

/-- Claim C2 amended: for a candidate column whose cell contains the
polarity token, the emitted value is the second segment of splitting the
column name on all "-" characters (for a name with a single "-" this is
everything after it), trimmed of surrounding whitespace; absence of a
second segment fails the computation. -/
theorem emitted_type_second_segment (name : String) (cell : Option String)
    (p : String)
    (h1 : pyIn "Pathology prognostics" name = true)
    (h2 : (pyWords (pyLower (strOfCell cell))).contains p = true) :
    prognostic_types [(name, cell)] p =
      ((pySplit '-' name).get? 1).map (fun seg => [pyStrip seg]) := by
  have hm : matching_prognostics [(name, cell)] p = [(name, cell)] := by
    unfold matching_prognostics prognostic_fields
    simp only [List.filter_cons, List.filter_nil, h1, if_true]
    simpa [List.elem_eq_mem] using h2
  unfold prognostic_types
  rw [hm]
  unfold mapOption mapOption extracted_type
  cases (pySplit '-' name).get? 1 <;> rfl

/-- Witness for the amended C2, on a column named the way the real dataset
names them: the cancer type follows the dash. -/
theorem emitted_type_second_segment_witness :
    prognostic_types
        [("Pathology prognostics - Liver cancer", some "unfavorable")]
        "unfavorable" = some ["Liver cancer"] :=
  (emitted_type_second_segment "Pathology prognostics - Liver cancer"
      (some "unfavorable") "unfavorable" (by decide) (by decide)).trans
    (by decide)

/-- Counterexample to claim C5: a cell holding both polarity tokens puts
its cancer type in BOTH polarity summaries of the record. -/
theorem both_polarities_cooccur :
    prognostic_types
        [("Liver cancer-Pathology prognostics",
          some "Favorable Unfavorable")] "favorable" =
      some ["Pathology prognostics"] ∧
    prognostic_types
        [("Liver cancer-Pathology prognostics",
          some "Favorable Unfavorable")] "unfavorable" =
      some ["Pathology prognostics"] := by
  exact ⟨by decide, by decide⟩

/-- Claim C5 amended: provided no candidate cell of the record contains
both polarity tokens, and distinct candidate columns extract distinct
labels, a cancer type appears in at most one of the two polarity
summaries; a cell carrying both tokens (see the counterexample) breaks the
stated invariant. -/
theorem polarity_summaries_disjoint (row : List (String × Option String))
    (h1 : ∀ c ∈ prognostic_fields row,
        ¬ ((pyWords (pyLower (strOfCell c.2))).contains "favorable" = true ∧
           (pyWords (pyLower (strOfCell c.2))).contains "unfavorable" = true))
    (h2 : ((prognostic_fields row).map extracted_type).Nodup)
    (lf lu : List String)
    (hf : prognostic_types row "favorable" = some lf)
    (hu : prognostic_types row "unfavorable" = some lu) :
    ∀ c ∈ lf, c ∉ lu := by
  intro c hcf hcu
  obtain ⟨colf, hcolf, hextf⟩ := mapOption_eq_some_mem hf hcf
  obtain ⟨colu, hcolu, hextu⟩ := mapOption_eq_some_mem hu hcu
  have hf1 := List.mem_filter.mp hcolf
  have hu1 := List.mem_filter.mp hcolu
  have heq : colf = colu :=
    List.inj_on_of_nodup_map h2 hf1.1 hu1.1 (by rw [hextf, hextu])
  exact h1 colf hf1.1 ⟨hf1.2, heq ▸ hu1.2⟩

/-- Witness for the amended C5 at a two-column record with one polarity
each. -/
theorem polarity_summaries_disjoint_witness :
    prognostic_types
        [("Pathology prognostics - Liver cancer", some "favorable"),
         ("Pathology prognostics - Breast cancer", some "unfavorable")]
        "favorable" = some ["Liver cancer"] ∧
    "Liver cancer" ∉ ["Breast cancer"] :=
  ⟨by decide,
   polarity_summaries_disjoint
     [("Pathology prognostics - Liver cancer", some "favorable"),
      ("Pathology prognostics - Breast cancer", some "unfavorable")]
     (by decide) (by decide) ["Liver cancer"] ["Breast cancer"]
     (by decide) (by decide) "Liver cancer" (by decide)⟩

/-! ## Claims about the Dataset Loader -/

/-- Claim C8: the output of load_data contains no record with a missing
Uniprot identifier, every retained record carries the three derived
columns, and a record with a missing Uniprot never causes an error, it is
silently dropped: whenever the per-row computations that do not depend on
Uniprot succeed, the loader succeeds. -/
theorem load_data_drops_missing_uniprot (t : List Row) :
    (∀ out, load_data t = some out → ∀ o ∈ out,
        o.uniprot.isSome = true ∧
        generate_prognostic_data o.cols "favorable" = some o.favorable ∧
        generate_prognostic_data o.cols "unfavorable" = some o.unfavorable ∧
        ∃ pc, o.proteinClass = some pc ∧
          o.prioritized = prioritize_protein_class pc
            protein_class_priority) ∧
    ((∀ r ∈ t,
        (generate_prognostic_data r.cols "favorable").isSome = true ∧
        (generate_prognostic_data r.cols "unfavorable").isSome = true ∧
        (r.uniprot.isSome = true → r.proteinClass.isSome = true)) →
      (load_data t).isSome = true) := by
  constructor
  · intro out hout o ho
    rw [load_data] at hout
    cases hrows : mapOption addProgRow t with
    | none => rw [hrows] at hout; cases hout
    | some rows =>
      rw [hrows] at hout
      obtain ⟨x, hx, hfin⟩ := mapOption_eq_some_mem hout ho
      have hx2 := List.mem_filter.mp hx
      obtain ⟨r, hr, hstep⟩ := mapOption_eq_some_mem hrows hx2.1
      rw [addProgRow] at hstep
      cases hfav : generate_prognostic_data r.cols "favorable" with
      | none => rw [hfav] at hstep; cases hstep
      | some f =>
        rw [hfav] at hstep
        cases hunf : generate_prognostic_data r.cols "unfavorable" with
        | none => rw [hunf] at hstep; cases hstep
        | some u =>
          rw [hunf] at hstep
          simp only [Option.some.injEq] at hstep
          rw [finalizeRow] at hfin
          rw [Option.map_eq_some'] at hfin
          obtain ⟨pc, hpc, ho_eq⟩ := hfin
          subst ho_eq
          refine ⟨?_, ?_, ?_, pc, ?_, rfl⟩
          · simpa using hx2.2
          · simpa [← hstep] using hfav
          · simpa [← hstep] using hunf
          · exact hpc
  · intro hall
    rw [load_data]
    cases hrows : mapOption addProgRow t with
    | none =>
      exfalso
      obtain ⟨r, hr, hnone⟩ := (mapOption_eq_none_iff _ _).mp hrows
      obtain ⟨h1, h2, _⟩ := hall r hr
      rw [addProgRow] at hnone
      rw [Option.isSome_iff_exists] at h1 h2
      obtain ⟨f, hf⟩ := h1
      obtain ⟨u, hu⟩ := h2
      rw [hf, hu] at hnone
      cases hnone
    | some rows =>
      rw [mapOption_isSome_iff]
      intro x hx
      have hx2 := List.mem_filter.mp hx
      obtain ⟨r, hr, hstep⟩ := mapOption_eq_some_mem hrows hx2.1
      obtain ⟨-, -, h3⟩ := hall r hr
      rw [addProgRow] at hstep
      cases hfav : generate_prognostic_data r.cols "favorable" with
      | none => rw [hfav] at hstep; cases hstep
      | some f =>
        rw [hfav] at hstep
        cases hunf : generate_prognostic_data r.cols "unfavorable" with
        | none => rw [hunf] at hstep; cases hstep
        | some u =>
          rw [hunf] at hstep
          simp only [Option.some.injEq] at hstep
          rw [finalizeRow, Option.isSome_map']
          have hxr : x.1 = r := by rw [← hstep]
          rw [hxr]
          exact h3 (by simpa [hxr] using hx2.2)

/-- Witness for C8: a two-row table, one row lacking the Uniprot value;
the loader succeeds and the retained record has it. -/
theorem load_data_drops_missing_uniprot_witness :
    ({ uniprot := some "P1", proteinClass := some "Enzymes", cols := [],
       favorable := "", unfavorable := "",
       prioritized := ["Enzymes"] } : OutRow).uniprot.isSome = true ∧
    (load_data [{ uniprot := some "P1", proteinClass := some "Enzymes",
                  cols := [] },
                { uniprot := none, proteinClass := some "X",
                  cols := [] }]).isSome = true :=
  ⟨((load_data_drops_missing_uniprot
      [{ uniprot := some "P1", proteinClass := some "Enzymes", cols := [] },
       { uniprot := none, proteinClass := some "X", cols := [] }]).1
      [{ uniprot := some "P1", proteinClass := some "Enzymes", cols := [],
         favorable := "", unfavorable := "", prioritized := ["Enzymes"] }]
      (by decide)
      { uniprot := some "P1", proteinClass := some "Enzymes", cols := [],
        favorable := "", unfavorable := "", prioritized := ["Enzymes"] }
      (by decide)).1,
   (load_data_drops_missing_uniprot
      [{ uniprot := some "P1", proteinClass := some "Enzymes", cols := [] },
       { uniprot := none, proteinClass := some "X", cols := [] }]).2
      (by decide)⟩

/-- Claim C9: starting from an empty cache, a first successful call
fetches the remote resource once; a second call without invalidation
returns the identical result and performs no second fetch. -/
theorem load_data_cached_idempotent (remote : List Row)
    (df : List OutRow) (h : load_data remote = some df) :
    (load_data_cached remote
        (load_data_cached remote ⟨none, 0⟩).2).1 =
      (load_data_cached remote ⟨none, 0⟩).1 ∧
    (load_data_cached remote
        (load_data_cached remote ⟨none, 0⟩).2).2.fetchCount =
      (load_data_cached remote ⟨none, 0⟩).2.fetchCount ∧
    (load_data_cached remote ⟨none, 0⟩).2.fetchCount = 1 := by
  simp [load_data_cached, h]

/-- Witness for C9 at the empty table, on which load_data succeeds. -/
theorem load_data_cached_idempotent_witness :
    (load_data_cached []
        (load_data_cached [] ⟨none, 0⟩).2).1 =
      (load_data_cached [] ⟨none, 0⟩).1 ∧
    (load_data_cached []
        (load_data_cached [] ⟨none, 0⟩).2).2.fetchCount =
      (load_data_cached [] ⟨none, 0⟩).2.fetchCount ∧
    (load_data_cached [] ⟨none, 0⟩).2.fetchCount = 1 :=
  load_data_cached_idempotent [] [] rfl
